import Mathlib

/-!
Verification of the agent-office cron/approval and task-board subsystem.

The definitions below are a shallow embedding of the TypeScript sources:
the in-memory state of the storage backend (`MockAgentOfficeStorage` in
src/db/mock-storage.ts) becomes an explicit `Store` record, and each
service-layer operation (src/services/cron-service.ts, the task service,
and the `deleteCoworker` command) becomes a pure function on `Store`,
returning `Except SvcError` where the source throws.  JavaScript `Date`
values are modelled as naturals (milliseconds); the current clock is an
explicit `now` parameter at every call that reads it.
-/

namespace AgentOffice

/-- Status of a cron request, `'pending' | 'approved' | 'rejected'` in the source. -/
inductive CronRequestStatus where
  | pending
  | approved
  | rejected
deriving DecidableEq

/-- Rendering of a `CronRequestStatus` back to its source string literal. -/
def statusName : CronRequestStatus → String
  | .pending => "pending"
  | .approved => "approved"
  | .rejected => "rejected"

/-- `SessionRow` (a coworker record) from src/db types. -/
structure SessionRow where
  id : Nat
  name : String
  session_id : String
  agent : String
  status : Option String
  created_at : Nat
deriving DecidableEq

/-- `MessageRow` from src/db types. -/
structure MessageRow where
  id : Nat
  from_name : String
  to_name : String
  body : String
  read : Bool
  injected : Bool
  notified : Bool
  created_at : Nat
deriving DecidableEq

/-- `CronJobRow` from src/db types. -/
structure CronJobRow where
  id : Nat
  name : String
  session_name : String
  schedule : String
  timezone : Option String
  message : String
  enabled : Bool
  created_at : Nat
  last_run : Option Nat
deriving DecidableEq

/-- `CronRequestRow` from src/db types. -/
structure CronRequestRow where
  id : Nat
  name : String
  session_name : String
  schedule : String
  timezone : Option String
  message : String
  status : CronRequestStatus
  requested_at : Nat
  reviewed_at : Option Nat
  reviewed_by : Option String
  reviewer_notes : Option String
deriving DecidableEq

/-- `TaskRow` from src/db types. -/
structure TaskRow where
  id : Nat
  title : String
  description : String
  assignee : Option String
  column : String
  dependencies : List Nat
  created_at : Nat
  updated_at : Nat
deriving DecidableEq

/-- The in-memory state kept by `MockAgentOfficeStorage`: one list per entity
plus the id counters used when inserting new rows. -/
structure Store where
  sessions : List SessionRow
  messages : List MessageRow
  cronJobs : List CronJobRow
  cronRequests : List CronRequestRow
  tasks : List TaskRow
  cronJobCounter : Nat
  cronRequestCounter : Nat
  taskCounter : Nat
deriving DecidableEq

/-- Error taxonomy of the spec, each constructor carrying the exact message
string thrown by the source at the corresponding site. -/
inductive SvcError where
  | notFound (msg : String)
  | alreadyExists (msg : String)
  | invalidState (msg : String)
  | validation (msg : String)
  | invalidSchedule (msg : String)
  | internalFailure (msg : String)
deriving DecidableEq

/-- Mutate the first element satisfying `p` in place, as the source's
pattern of `array.find(...)` followed by field assignment does. -/
def updateFirst {α : Type} (p : α → Bool) (f : α → α) : List α → List α
  | [] => []
  | a :: as => if p a then f a :: as else a :: updateFirst p f as

/-- Remove the first element satisfying `p`, as `findIndex` + `splice(index, 1)` does. -/
def removeFirst {α : Type} (p : α → Bool) : List α → List α
  | [] => []
  | a :: as => if p a then as else a :: removeFirst p as

/-- `getCronRequestById` of the mock storage: first request with the given id. -/
def getCronRequestById (s : Store) (id : Nat) : Option CronRequestRow :=
  s.cronRequests.find? (fun r => r.id == id)

/-- The field mutation performed by `updateCronRequestStatus` on the found row. -/
def reviewFields (st : CronRequestStatus) (reviewedBy : String)
    (reviewerNotes : Option String) (now : Nat) (r : CronRequestRow) : CronRequestRow :=
  { r with
    status := st
    reviewed_at := some now
    reviewed_by := some reviewedBy
    reviewer_notes := reviewerNotes }

/-- `MockAgentOfficeStorage.updateCronRequestStatus`: find the request by id,
set status and review fields, return the mutated row (or `none`). -/
def updateCronRequestStatus (s : Store) (id : Nat) (st : CronRequestStatus)
    (reviewedBy : String) (reviewerNotes : Option String) (now : Nat) :
    Store × Option CronRequestRow :=
  match s.cronRequests.find? (fun r => r.id == id) with
  | none => (s, none)
  | some r =>
      ({ s with cronRequests :=
          updateFirst (fun q => q.id == id) (reviewFields st reviewedBy reviewerNotes now) s.cronRequests },
       some (reviewFields st reviewedBy reviewerNotes now r))

/-- `CronService.approveCronRequest`. -/
def approveCronRequest (s : Store) (id : Nat) (reviewedBy : String)
    (reviewerNotes : Option String) (now : Nat) : Except SvcError (Store × CronRequestRow) :=
  match getCronRequestById s id with
  | none => .error (.notFound ("Cron request " ++ toString id ++ " not found"))
  | some r =>
      if r.status ≠ CronRequestStatus.pending then
        .error (.invalidState ("Cannot approve cron request " ++ toString id ++
          ": status is " ++ statusName r.status ++ ", expected pending"))
      else
        match updateCronRequestStatus s id .approved reviewedBy reviewerNotes now with
        | (s2, some updated) => .ok (s2, updated)
        | (_, none) => .error (.internalFailure ("Failed to approve cron request " ++ toString id))

/-- `CronService.rejectCronRequest`. -/
def rejectCronRequest (s : Store) (id : Nat) (reviewedBy : String)
    (reviewerNotes : Option String) (now : Nat) : Except SvcError (Store × CronRequestRow) :=
  match getCronRequestById s id with
  | none => .error (.notFound ("Cron request " ++ toString id ++ " not found"))
  | some r =>
      if r.status ≠ CronRequestStatus.pending then
        .error (.invalidState ("Cannot reject cron request " ++ toString id ++
          ": status is " ++ statusName r.status ++ ", expected pending"))
      else
        match updateCronRequestStatus s id .rejected reviewedBy reviewerNotes now with
        | (s2, some updated) => .ok (s2, updated)
        | (_, none) => .error (.internalFailure ("Failed to reject cron request " ++ toString id))

theorem find_key_updateFirst {α : Type} (key : α → Nat) (i : Nat) (f : α → α)
    (hf : ∀ a, key (f a) = key a) (l : List α) :
    (updateFirst (fun a => key a == i) f l).find? (fun a => key a == i) =
      (l.find? (fun a => key a == i)).map f := by
  induction l with
  | nil => rfl
  | cons a as ih =>
      by_cases h : key a == i
      · simp [updateFirst, h, List.find?, hf]
      · simp [updateFirst, h, List.find?, ih]

theorem approve_of_ne_pending (s : Store) (id : Nat) (rb : String) (n : Option String)
    (now : Nat) (r : CronRequestRow) (hr : getCronRequestById s id = some r)
    (hst : r.status ≠ CronRequestStatus.pending) :
    approveCronRequest s id rb n now =
      .error (.invalidState ("Cannot approve cron request " ++ toString id ++
        ": status is " ++ statusName r.status ++ ", expected pending")) := by
  unfold approveCronRequest
  rw [hr]
  simp only [if_pos hst]

theorem reject_of_ne_pending (s : Store) (id : Nat) (rb : String) (n : Option String)
    (now : Nat) (r : CronRequestRow) (hr : getCronRequestById s id = some r)
    (hst : r.status ≠ CronRequestStatus.pending) :
    rejectCronRequest s id rb n now =
      .error (.invalidState ("Cannot reject cron request " ++ toString id ++
        ": status is " ++ statusName r.status ++ ", expected pending")) := by
  unfold rejectCronRequest
  rw [hr]
  simp only [if_pos hst]

theorem approve_of_pending (s : Store) (id : Nat) (rb : String) (n : Option String)
    (now : Nat) (r : CronRequestRow) (hr : getCronRequestById s id = some r)
    (hst : r.status = CronRequestStatus.pending) :
    approveCronRequest s id rb n now =
      .ok ({ s with cronRequests :=
              updateFirst (fun q => q.id == id) (reviewFields .approved rb n now) s.cronRequests },
           reviewFields .approved rb n now r) := by
  unfold approveCronRequest updateCronRequestStatus
  have hr' : s.cronRequests.find? (fun q => q.id == id) = some r := hr
  rw [hr, hr']
  simp only [if_neg (not_not_intro hst)]

theorem reject_of_pending (s : Store) (id : Nat) (rb : String) (n : Option String)
    (now : Nat) (r : CronRequestRow) (hr : getCronRequestById s id = some r)
    (hst : r.status = CronRequestStatus.pending) :
    rejectCronRequest s id rb n now =
      .ok ({ s with cronRequests :=
              updateFirst (fun q => q.id == id) (reviewFields .rejected rb n now) s.cronRequests },
           reviewFields .rejected rb n now r) := by
  unfold rejectCronRequest updateCronRequestStatus
  have hr' : s.cronRequests.find? (fun q => q.id == id) = some r := hr
  rw [hr, hr']
  simp only [if_neg (not_not_intro hst)]

theorem getCronRequestById_after_review (s : Store) (id : Nat) (st : CronRequestStatus)
    (rb : String) (n : Option String) (now : Nat) (r : CronRequestRow)
    (hr : getCronRequestById s id = some r) :
    getCronRequestById
      { s with cronRequests :=
          updateFirst (fun q => q.id == id) (reviewFields st rb n now) s.cronRequests } id =
      some (reviewFields st rb n now r) := by
  unfold getCronRequestById at hr ⊢
  simpa [hr] using
    find_key_updateFirst CronRequestRow.id id (reviewFields st rb n now) (fun a => rfl)
      s.cronRequests

/-- C1: approveCronRequest and rejectCronRequest succeed only when the request's
current status is pending (on success setting the status together with
reviewed_at, reviewed_by, reviewer_notes); once approved or rejected, every
further approve or reject call, for all reviewers and notes, fails with an
InvalidStateError whose message names the current status. -/
theorem c1_cron_request_review_terminal
    (s : Store) (id : Nat) (rb : String) (n : Option String) (now : Nat)
    (r : CronRequestRow) (hr : getCronRequestById s id = some r) :
    (r.status ≠ CronRequestStatus.pending →
      approveCronRequest s id rb n now =
        .error (.invalidState ("Cannot approve cron request " ++ toString id ++
          ": status is " ++ statusName r.status ++ ", expected pending")) ∧
      rejectCronRequest s id rb n now =
        .error (.invalidState ("Cannot reject cron request " ++ toString id ++
          ": status is " ++ statusName r.status ++ ", expected pending"))) ∧
    (r.status = CronRequestStatus.pending →
      (∃ s2, approveCronRequest s id rb n now = .ok (s2, reviewFields .approved rb n now r) ∧
        getCronRequestById s2 id = some (reviewFields .approved rb n now r) ∧
        ∀ rb2 n2 now2,
          approveCronRequest s2 id rb2 n2 now2 =
            .error (.invalidState ("Cannot approve cron request " ++ toString id ++
              ": status is " ++ statusName CronRequestStatus.approved ++ ", expected pending")) ∧
          rejectCronRequest s2 id rb2 n2 now2 =
            .error (.invalidState ("Cannot reject cron request " ++ toString id ++
              ": status is " ++ statusName CronRequestStatus.approved ++ ", expected pending"))) ∧
      (∃ s3, rejectCronRequest s id rb n now = .ok (s3, reviewFields .rejected rb n now r) ∧
        getCronRequestById s3 id = some (reviewFields .rejected rb n now r) ∧
        ∀ rb2 n2 now2,
          approveCronRequest s3 id rb2 n2 now2 =
            .error (.invalidState ("Cannot approve cron request " ++ toString id ++
              ": status is " ++ statusName CronRequestStatus.rejected ++ ", expected pending")) ∧
          rejectCronRequest s3 id rb2 n2 now2 =
            .error (.invalidState ("Cannot reject cron request " ++ toString id ++
              ": status is " ++ statusName CronRequestStatus.rejected ++ ", expected pending"))) ) := by
  constructor
  · intro hst
    exact ⟨approve_of_ne_pending s id rb n now r hr hst,
           reject_of_ne_pending s id rb n now r hr hst⟩
  · intro hst
    constructor
    · refine ⟨_, approve_of_pending s id rb n now r hr hst, ?_, ?_⟩
      · exact getCronRequestById_after_review s id .approved rb n now r hr
      · intro rb2 n2 now2
        have h2 := getCronRequestById_after_review s id .approved rb n now r hr
        have hne : (reviewFields .approved rb n now r).status ≠ CronRequestStatus.pending := by
          simp [reviewFields]
        exact ⟨approve_of_ne_pending _ id rb2 n2 now2 _ h2 hne,
               reject_of_ne_pending _ id rb2 n2 now2 _ h2 hne⟩
    · refine ⟨_, reject_of_pending s id rb n now r hr hst, ?_, ?_⟩
      · exact getCronRequestById_after_review s id .rejected rb n now r hr
      · intro rb2 n2 now2
        have h2 := getCronRequestById_after_review s id .rejected rb n now r hr
        have hne : (reviewFields .rejected rb n now r).status ≠ CronRequestStatus.pending := by
          simp [reviewFields]
        exact ⟨approve_of_ne_pending _ id rb2 n2 now2 _ h2 hne,
               reject_of_ne_pending _ id rb2 n2 now2 _ h2 hne⟩

/-- Concrete coworker row used by witnesses. -/
def wSession : SessionRow :=
  { id := 1, name := "Alice", session_id := "alice", agent := "claude",
    status := none, created_at := 0 }

/-- Concrete pending cron request used by witnesses. -/
def wReq : CronRequestRow :=
  { id := 1, name := "weekly", session_name := "Alice", schedule := "0 9 * * *",
    timezone := some "UTC", message := "standup", status := .pending,
    requested_at := 0, reviewed_at := none, reviewed_by := none, reviewer_notes := none }

/-- Concrete store holding one coworker and one pending cron request. -/
def wStoreReq : Store :=
  { sessions := [wSession], messages := [], cronJobs := [], cronRequests := [wReq],
    tasks := [], cronJobCounter := 1, cronRequestCounter := 2, taskCounter := 1 }

theorem c1_witness :
    getCronRequestById wStoreReq 1 = some wReq ∧
    ((wReq.status ≠ CronRequestStatus.pending →
      approveCronRequest wStoreReq 1 "Bob" none 5 =
        .error (.invalidState ("Cannot approve cron request " ++ toString 1 ++
          ": status is " ++ statusName wReq.status ++ ", expected pending")) ∧
      rejectCronRequest wStoreReq 1 "Bob" none 5 =
        .error (.invalidState ("Cannot reject cron request " ++ toString 1 ++
          ": status is " ++ statusName wReq.status ++ ", expected pending"))) ∧
    (wReq.status = CronRequestStatus.pending →
      (∃ s2, approveCronRequest wStoreReq 1 "Bob" none 5 =
          .ok (s2, reviewFields .approved "Bob" none 5 wReq) ∧
        getCronRequestById s2 1 = some (reviewFields .approved "Bob" none 5 wReq) ∧
        ∀ rb2 n2 now2,
          approveCronRequest s2 1 rb2 n2 now2 =
            .error (.invalidState ("Cannot approve cron request " ++ toString 1 ++
              ": status is " ++ statusName CronRequestStatus.approved ++ ", expected pending")) ∧
          rejectCronRequest s2 1 rb2 n2 now2 =
            .error (.invalidState ("Cannot reject cron request " ++ toString 1 ++
              ": status is " ++ statusName CronRequestStatus.approved ++ ", expected pending"))) ∧
      (∃ s3, rejectCronRequest wStoreReq 1 "Bob" none 5 =
          .ok (s3, reviewFields .rejected "Bob" none 5 wReq) ∧
        getCronRequestById s3 1 = some (reviewFields .rejected "Bob" none 5 wReq) ∧
        ∀ rb2 n2 now2,
          approveCronRequest s3 1 rb2 n2 now2 =
            .error (.invalidState ("Cannot approve cron request " ++ toString 1 ++
              ": status is " ++ statusName CronRequestStatus.rejected ++ ", expected pending")) ∧
          rejectCronRequest s3 1 rb2 n2 now2 =
            .error (.invalidState ("Cannot reject cron request " ++ toString 1 ++
              ": status is " ++ statusName CronRequestStatus.rejected ++ ", expected pending"))))) :=
  ⟨rfl, c1_cron_request_review_terminal wStoreReq 1 "Bob" none 5 wReq rfl⟩

/-- `getCronJobById` of the mock storage. -/
def getCronJobById (s : Store) (id : Nat) : Option CronJobRow :=
  s.cronJobs.find? (fun c => c.id == id)

/-- `MockAgentOfficeStorage.enableCronJob`: set `enabled = true` on the found job. -/
def storageEnableCronJob (s : Store) (id : Nat) : Store :=
  { s with cronJobs :=
      updateFirst (fun c => c.id == id) (fun c => { c with enabled := true }) s.cronJobs }

/-- `MockAgentOfficeStorage.disableCronJob`: set `enabled = false` on the found job. -/
def storageDisableCronJob (s : Store) (id : Nat) : Store :=
  { s with cronJobs :=
      updateFirst (fun c => c.id == id) (fun c => { c with enabled := false }) s.cronJobs }

/-- `CronService.enableCronJob`: not-found check, then the storage update. -/
def enableCronJob (s : Store) (id : Nat) : Except SvcError Store :=
  match getCronJobById s id with
  | none => .error (.notFound ("Cron job " ++ toString id ++ " not found"))
  | some _ => .ok (storageEnableCronJob s id)

/-- `CronService.disableCronJob`: not-found check, then the storage update. -/
def disableCronJob (s : Store) (id : Nat) : Except SvcError Store :=
  match getCronJobById s id with
  | none => .error (.notFound ("Cron job " ++ toString id ++ " not found"))
  | some _ => .ok (storageDisableCronJob s id)

theorem updateFirst_key_eq_map {α : Type} (key : α → Nat) (i : Nat) (f : α → α)
    (l : List α) (hn : (l.map key).Nodup) :
    updateFirst (fun a => key a == i) f l = l.map (fun a => if key a == i then f a else a) := by
  induction l with
  | nil => rfl
  | cons a as ih =>
      rw [List.map_cons, List.nodup_cons] at hn
      by_cases h : key a == i
      · rw [updateFirst, if_pos h, List.map_cons, if_pos h]
        have : ∀ x ∈ as, (if key x == i then f x else x) = x := by
          intro x hx
          have hxa : key x ≠ key a := fun hk => hn.1 (hk ▸ List.mem_map_of_mem key hx)
          have : ¬ (key x == i) := by
            simp only [beq_iff_eq] at h ⊢
            exact fun hk => hxa (hk.trans h.symm)
          rw [if_neg this]
        rw [List.map_congr_left this, List.map_id']
      · rw [updateFirst, if_neg (by simpa using h), List.map_cons, if_neg h, ih hn.2]

theorem updateFirst_eq_self {α : Type} (p : α → Bool) (f : α → α) (l : List α) (a : α)
    (hfind : l.find? p = some a) (hfa : f a = a) : updateFirst p f l = l := by
  induction l with
  | nil => simp at hfind
  | cons b bs ih =>
      by_cases h : p b
      · rw [List.find?_cons_of_pos _ h, Option.some.injEq] at hfind
        subst hfind
        rw [updateFirst, if_pos h, hfa]
      · rw [List.find?_cons_of_neg _ (by simpa using h)] at hfind
        rw [updateFirst, if_neg (by simpa using h), ih hfind]

theorem enable_noop (s : Store) (id : Nat) (job : CronJobRow)
    (hj : getCronJobById s id = some job) (he : job.enabled = true) :
    enableCronJob s id = .ok s := by
  unfold enableCronJob
  rw [hj]
  unfold storageEnableCronJob
  have hfix : ({ job with enabled := true } : CronJobRow) = job := by
    cases job
    simp_all
  rw [updateFirst_eq_self _ _ _ job hj hfix]

theorem disable_noop (s : Store) (id : Nat) (job : CronJobRow)
    (hj : getCronJobById s id = some job) (he : job.enabled = false) :
    disableCronJob s id = .ok s := by
  unfold disableCronJob
  rw [hj]
  unfold storageDisableCronJob
  have hfix : ({ job with enabled := false } : CronJobRow) = job := by
    cases job
    simp_all
  rw [updateFirst_eq_self _ _ _ job hj hfix]

/-- C10: enableCronJob and disableCronJob change at most the target job's
enabled flag: all other fields of that job, every other job, and every other
entity of the store are unchanged, and re-applying the already-current flag
succeeds and leaves the state identical. -/
theorem c10_enable_disable_frame (s : Store) (id : Nat) (job : CronJobRow)
    (hn : (s.cronJobs.map (fun c => c.id)).Nodup)
    (hj : getCronJobById s id = some job) :
    enableCronJob s id = .ok (storageEnableCronJob s id) ∧
    disableCronJob s id = .ok (storageDisableCronJob s id) ∧
    (storageEnableCronJob s id).cronJobs =
      s.cronJobs.map (fun c => if c.id == id then { c with enabled := true } else c) ∧
    (storageDisableCronJob s id).cronJobs =
      s.cronJobs.map (fun c => if c.id == id then { c with enabled := false } else c) ∧
    getCronJobById (storageEnableCronJob s id) id = some { job with enabled := true } ∧
    getCronJobById (storageDisableCronJob s id) id = some { job with enabled := false } ∧
    (∀ c ∈ s.cronJobs, c.id ≠ id →
      c ∈ (storageEnableCronJob s id).cronJobs ∧ c ∈ (storageDisableCronJob s id).cronJobs) ∧
    (storageEnableCronJob s id).sessions = s.sessions ∧
    (storageEnableCronJob s id).messages = s.messages ∧
    (storageEnableCronJob s id).cronRequests = s.cronRequests ∧
    (storageEnableCronJob s id).tasks = s.tasks ∧
    (storageEnableCronJob s id).cronJobCounter = s.cronJobCounter ∧
    (storageEnableCronJob s id).cronRequestCounter = s.cronRequestCounter ∧
    (storageEnableCronJob s id).taskCounter = s.taskCounter ∧
    (storageDisableCronJob s id).sessions = s.sessions ∧
    (storageDisableCronJob s id).messages = s.messages ∧
    (storageDisableCronJob s id).cronRequests = s.cronRequests ∧
    (storageDisableCronJob s id).tasks = s.tasks ∧
    (storageDisableCronJob s id).cronJobCounter = s.cronJobCounter ∧
    (storageDisableCronJob s id).cronRequestCounter = s.cronRequestCounter ∧
    (storageDisableCronJob s id).taskCounter = s.taskCounter ∧
    (job.enabled = true → enableCronJob s id = .ok s) ∧
    (job.enabled = false → disableCronJob s id = .ok s) ∧
    enableCronJob (storageEnableCronJob s id) id = .ok (storageEnableCronJob s id) ∧
    disableCronJob (storageDisableCronJob s id) id = .ok (storageDisableCronJob s id) := by
  have hen : getCronJobById (storageEnableCronJob s id) id = some { job with enabled := true } := by
    unfold getCronJobById at hj ⊢
    unfold storageEnableCronJob
    simpa [hj] using
      find_key_updateFirst CronJobRow.id id (fun c => { c with enabled := true })
        (fun a => rfl) s.cronJobs
  have hdis : getCronJobById (storageDisableCronJob s id) id = some { job with enabled := false } := by
    unfold getCronJobById at hj ⊢
    unfold storageDisableCronJob
    simpa [hj] using
      find_key_updateFirst CronJobRow.id id (fun c => { c with enabled := false })
        (fun a => rfl) s.cronJobs
  have hmapEn : (storageEnableCronJob s id).cronJobs =
      s.cronJobs.map (fun c => if c.id == id then { c with enabled := true } else c) :=
    updateFirst_key_eq_map CronJobRow.id id _ s.cronJobs hn
  have hmapDis : (storageDisableCronJob s id).cronJobs =
      s.cronJobs.map (fun c => if c.id == id then { c with enabled := false } else c) :=
    updateFirst_key_eq_map CronJobRow.id id _ s.cronJobs hn
  refine ⟨by unfold enableCronJob; rw [hj], by unfold disableCronJob; rw [hj],
    hmapEn, hmapDis, hen, hdis, ?_, rfl, rfl, rfl, rfl, rfl, rfl, rfl,
    rfl, rfl, rfl, rfl, rfl, rfl, rfl, ?_, ?_, ?_, ?_⟩
  · intro c hc hcid
    constructor
    · rw [hmapEn]
      exact List.mem_map.mpr ⟨c, hc, by simp [hcid]⟩
    · rw [hmapDis]
      exact List.mem_map.mpr ⟨c, hc, by simp [hcid]⟩
  · intro he
    exact enable_noop s id job hj he
  · intro he
    exact disable_noop s id job hj he
  · exact enable_noop (storageEnableCronJob s id) id { job with enabled := true } hen rfl
  · exact disable_noop (storageDisableCronJob s id) id { job with enabled := false } hdis rfl

/-- Concrete cron job (enabled) used by witnesses. -/
def wJob : CronJobRow :=
  { id := 1, name := "standup", session_name := "Alice", schedule := "0 9 * * *",
    timezone := some "UTC", message := "time for standup", enabled := true,
    created_at := 0, last_run := none }

/-- Concrete store holding one coworker and one enabled cron job. -/
def wStoreJob : Store :=
  { sessions := [wSession], messages := [], cronJobs := [wJob], cronRequests := [],
    tasks := [], cronJobCounter := 2, cronRequestCounter := 1, taskCounter := 1 }

theorem c10_witness :
    ((wStoreJob.cronJobs.map (fun c => c.id)).Nodup ∧
     getCronJobById wStoreJob 1 = some wJob) ∧
    (enableCronJob wStoreJob 1 = .ok (storageEnableCronJob wStoreJob 1) ∧
     disableCronJob wStoreJob 1 = .ok (storageDisableCronJob wStoreJob 1) ∧
     getCronJobById (storageEnableCronJob wStoreJob 1) 1 = some { wJob with enabled := true } ∧
     getCronJobById (storageDisableCronJob wStoreJob 1) 1 = some { wJob with enabled := false } ∧
     (storageEnableCronJob wStoreJob 1).sessions = wStoreJob.sessions ∧
     (wJob.enabled = true → enableCronJob wStoreJob 1 = .ok wStoreJob) ∧
     enableCronJob (storageEnableCronJob wStoreJob 1) 1 = .ok (storageEnableCronJob wStoreJob 1)) := by
  have h := c10_enable_disable_frame wStoreJob 1 wJob (by decide) rfl
  exact ⟨⟨by decide, rfl⟩,
    h.1, h.2.1, h.2.2.2.2.1, h.2.2.2.2.2.1, h.2.2.2.2.2.2.2.1,
    h.2.2.2.2.2.2.2.2.2.2.2.2.2.2.2.2.2.2.2.2.2.1,
    h.2.2.2.2.2.2.2.2.2.2.2.2.2.2.2.2.2.2.2.2.2.2.2.1⟩

/-- `getSessionByName` of the mock storage: first coworker with the given name. -/
def getSessionByName (s : Store) (name : String) : Option SessionRow :=
  s.sessions.find? (fun x => x.name == name)

/-- `MockAgentOfficeStorage.cronJobExistsForSession`: a job with this
`(name, session_name)` pair exists. -/
def cronJobExistsForSession (s : Store) (name sessionName : String) : Bool :=
  s.cronJobs.any (fun c => c.name == name && c.session_name == sessionName)

/-- `MockAgentOfficeStorage.createCronJob`: insert a new job with the next
counter id, `enabled = true` and `last_run = null`. -/
def storageCreateCronJob (s : Store) (name sessionName schedule : String)
    (timezone : Option String) (message : String) (now : Nat) : Store × CronJobRow :=
  let job : CronJobRow :=
    { id := s.cronJobCounter, name := name, session_name := sessionName,
      schedule := schedule, timezone := timezone, message := message,
      enabled := true, created_at := now, last_run := none }
  ({ s with cronJobs := s.cronJobs ++ [job], cronJobCounter := s.cronJobCounter + 1 }, job)

/-- `CronService.createCronJob`: coworker-existence check, duplicate check,
then the storage insert. -/
def createCronJob (s : Store) (name coworkerName schedule : String)
    (timezone : Option String) (message : String) (now : Nat) :
    Except SvcError (Store × CronJobRow) :=
  match getSessionByName s coworkerName with
  | none => .error (.notFound ("Coworker " ++ coworkerName ++ " not found"))
  | some _ =>
      if cronJobExistsForSession s name coworkerName then
        .error (.alreadyExists ("Cron job " ++ name ++ " already exists for coworker " ++ coworkerName))
      else
        .ok (storageCreateCronJob s name coworkerName schedule timezone message now)

/-- C3: createCronJob fails with NotFoundError when the coworker does not
exist, fails with AlreadyExistsError when a job with the pair
(name, coworkerName) already exists, and otherwise persists a new job whose
enabled flag is true and whose last_run is null. -/
theorem c3_create_cron_job (s : Store) (name coworkerName schedule : String)
    (timezone : Option String) (message : String) (now : Nat) :
    (getSessionByName s coworkerName = none →
      createCronJob s name coworkerName schedule timezone message now =
        .error (.notFound ("Coworker " ++ coworkerName ++ " not found"))) ∧
    (∀ sess, getSessionByName s coworkerName = some sess →
      cronJobExistsForSession s name coworkerName = true →
      createCronJob s name coworkerName schedule timezone message now =
        .error (.alreadyExists ("Cron job " ++ name ++ " already exists for coworker " ++ coworkerName))) ∧
    (∀ sess, getSessionByName s coworkerName = some sess →
      cronJobExistsForSession s name coworkerName = false →
      createCronJob s name coworkerName schedule timezone message now =
        .ok (storageCreateCronJob s name coworkerName schedule timezone message now) ∧
      (storageCreateCronJob s name coworkerName schedule timezone message now).2.enabled = true ∧
      (storageCreateCronJob s name coworkerName schedule timezone message now).2.last_run = none ∧
      (storageCreateCronJob s name coworkerName schedule timezone message now).2 ∈
        (storageCreateCronJob s name coworkerName schedule timezone message now).1.cronJobs) := by
  refine ⟨?_, ?_, ?_⟩
  · intro h
    unfold createCronJob
    rw [h]
  · intro sess hs hex
    unfold createCronJob
    rw [hs]
    simp only [hex, if_true]
  · intro sess hs hex
    refine ⟨?_, rfl, rfl, ?_⟩
    · unfold createCronJob
      rw [hs]
      simp only [hex, Bool.false_eq_true, if_false]
    · unfold storageCreateCronJob
      simp

theorem c3_witness :
    (getSessionByName wStoreReq "Alice" = some wSession ∧
     cronJobExistsForSession wStoreReq "standup" "Alice" = false) ∧
    (createCronJob wStoreReq "standup" "Alice" "0 9 * * *" (some "UTC") "go" 3 =
       .ok (storageCreateCronJob wStoreReq "standup" "Alice" "0 9 * * *" (some "UTC") "go" 3) ∧
     (storageCreateCronJob wStoreReq "standup" "Alice" "0 9 * * *" (some "UTC") "go" 3).2.enabled = true ∧
     (storageCreateCronJob wStoreReq "standup" "Alice" "0 9 * * *" (some "UTC") "go" 3).2.last_run = none ∧
     (storageCreateCronJob wStoreReq "standup" "Alice" "0 9 * * *" (some "UTC") "go" 3).2 ∈
       (storageCreateCronJob wStoreReq "standup" "Alice" "0 9 * * *" (some "UTC") "go" 3).1.cronJobs) :=
  ⟨⟨rfl, rfl⟩,
   (c3_create_cron_job wStoreReq "standup" "Alice" "0 9 * * *" (some "UTC") "go" 3).2.2
     wSession rfl rfl⟩

/-- Truncate a millisecond timestamp to its minute, the source's
`checkDate.setSeconds(0, 0)`. -/
def truncToMinute (t : Nat) : Nat := t / 60000 * 60000

/-- `CronService.checkCronJob`, parameterized by the third-party cron
matcher (the croner `Cron` constructor plus `cron.match`): the oracle
returns `.ok b` when the schedule parses and matching the instant yields
`b`, and `.error e` when the library throws with message `e`. -/
def checkCronJob (matcher : String → Option String → Nat → Except String Bool)
    (s : Store) (cronJobId : Nat) (referenceDate : Nat) : Except SvcError Bool :=
  match getCronJobById s cronJobId with
  | none => .error (.notFound ("Cron job " ++ toString cronJobId ++ " not found"))
  | some job =>
      if !job.enabled then .ok false
      else
        match matcher job.schedule job.timezone (truncToMinute referenceDate) with
        | .ok b => .ok b
        | .error e =>
            .error (.invalidSchedule ("Invalid cron schedule \"" ++ job.schedule ++ "\": " ++ e))

/-- C4: for every existing cron job whose enabled flag is false and every
reference instant, checkCronJob returns false without evaluating the
schedule: the result is `.ok false` for every matcher oracle, including ones
that reject the stored schedule as unparseable. -/
theorem c4_disabled_check_false
    (matcher : String → Option String → Nat → Except String Bool)
    (s : Store) (id refDate : Nat) (job : CronJobRow)
    (hj : getCronJobById s id = some job) (hdis : job.enabled = false) :
    checkCronJob matcher s id refDate = .ok false := by
  unfold checkCronJob
  rw [hj]
  simp [hdis]

/-- A matcher oracle that rejects every schedule, standing for croner
throwing on an unparseable expression. -/
def failMatcher : String → Option String → Nat → Except String Bool :=
  fun _ _ _ => .error "parse failure"

/-- Concrete disabled cron job with an unparseable schedule. -/
def wJobOff : CronJobRow :=
  { id := 2, name := "offjob", session_name := "Alice", schedule := "not a cron expr",
    timezone := none, message := "m", enabled := false, created_at := 0, last_run := none }

/-- Concrete store holding the disabled bad-schedule job. -/
def wStoreOff : Store :=
  { sessions := [wSession], messages := [], cronJobs := [wJobOff], cronRequests := [],
    tasks := [], cronJobCounter := 3, cronRequestCounter := 1, taskCounter := 1 }

theorem c4_witness :
    (getCronJobById wStoreOff 2 = some wJobOff ∧ wJobOff.enabled = false) ∧
    checkCronJob failMatcher wStoreOff 2 123456789 = .ok false :=
  ⟨⟨rfl, rfl⟩, c4_disabled_check_false failMatcher wStoreOff 2 123456789 wJobOff rfl rfl⟩

/-- Does `needle` occur as a prefix of `hay`? (character-list version) -/
def chListLeads : List Char → List Char → Bool
  | [], _ => true
  | _ :: _, [] => false
  | a :: as, b :: bs => a == b && chListLeads as bs

/-- Does `needle` occur anywhere inside `hay`? (character-list version) -/
def chListHasSub (needle : List Char) : List Char → Bool
  | [] => needle.isEmpty
  | b :: bs => chListLeads needle (b :: bs) || chListHasSub needle bs

/-- JavaScript `hay.includes(needle)`: substring containment. -/
def strIncludes (hay needle : String) : Bool :=
  chListHasSub needle.toList hay.toList

/-- Concrete enabled cron job with an unparseable schedule and id 7. -/
def wJobBad : CronJobRow :=
  { id := 7, name := "badjob", session_name := "Alice", schedule := "bad",
    timezone := none, message := "m", enabled := true, created_at := 0, last_run := none }

/-- Concrete store holding the enabled bad-schedule job. -/
def wStoreBad : Store :=
  { sessions := [wSession], messages := [], cronJobs := [wJobBad], cronRequests := [],
    tasks := [], cronJobCounter := 8, cronRequestCounter := 1, taskCounter := 1 }

/-- C9 fails as stated: for the enabled job with id 7 and unparseable
schedule "bad", checkCronJob raises an InvalidScheduleError whose message
contains the offending schedule but does not contain the job id 7 anywhere,
so the error is not wrapped with the job id. -/
theorem c9_counterexample :
    checkCronJob failMatcher wStoreBad 7 0 =
      .error (.invalidSchedule "Invalid cron schedule \"bad\": parse failure") ∧
    strIncludes "Invalid cron schedule \"bad\": parse failure" "bad" = true ∧
    strIncludes "Invalid cron schedule \"bad\": parse failure" "7" = false := by
  exact ⟨rfl, by decide, by decide⟩

/-- C9 amended: for every existing, enabled cron job whose stored schedule
the matcher rejects, checkCronJob fails with an InvalidScheduleError wrapped
with the offending schedule expression and the underlying parse error (the
job id is not part of the error). -/
theorem c9_invalid_schedule_wrapped
    (matcher : String → Option String → Nat → Except String Bool)
    (s : Store) (id refDate : Nat) (job : CronJobRow) (e : String)
    (hj : getCronJobById s id = some job) (hen : job.enabled = true)
    (hm : matcher job.schedule job.timezone (truncToMinute refDate) = .error e) :
    checkCronJob matcher s id refDate =
      .error (.invalidSchedule ("Invalid cron schedule \"" ++ job.schedule ++ "\": " ++ e)) := by
  unfold checkCronJob
  rw [hj]
  simp [hen, hm]

theorem c9_witness :
    (getCronJobById wStoreBad 7 = some wJobBad ∧ wJobBad.enabled = true ∧
     failMatcher wJobBad.schedule wJobBad.timezone (truncToMinute 0) = .error "parse failure") ∧
    checkCronJob failMatcher wStoreBad 7 0 =
      .error (.invalidSchedule ("Invalid cron schedule \"" ++ wJobBad.schedule ++ "\": " ++ "parse failure")) :=
  ⟨⟨rfl, rfl, rfl⟩,
   c9_invalid_schedule_wrapped failMatcher wStoreBad 7 0 wJobBad "parse failure" rfl rfl rfl⟩

/-- The six recognized kanban columns, in their fixed source order. -/
def validColumns : List String :=
  ["idea", "approved idea", "working on", "blocked", "ready for review", "done"]

/-- `getTaskById` of the mock storage. -/
def getTaskById (s : Store) (id : Nat) : Option TaskRow :=
  s.tasks.find? (fun t => t.id == id)

/-- The `Partial<Pick<TaskRow, ...>>` argument of `updateTask`: `none` is an
absent key, `some v` a supplied value (for `assignee`, `some none` supplies
an explicit null). -/
structure TaskUpdates where
  title : Option String := none
  description : Option String := none
  assignee : Option (Option String) := none
  column : Option String := none
  dependencies : Option (List Nat) := none
deriving DecidableEq

/-- The field mutation of `MockAgentOfficeStorage.updateTask`: overwrite each
supplied field, then always refresh `updated_at`. -/
def applyTaskUpdates (u : TaskUpdates) (now : Nat) (t : TaskRow) : TaskRow :=
  { t with
    title := u.title.getD t.title
    description := u.description.getD t.description
    assignee := u.assignee.getD t.assignee
    column := u.column.getD t.column
    dependencies := u.dependencies.getD t.dependencies
    updated_at := now }

/-- `MockAgentOfficeStorage.updateTask`: find the task by id, apply the
updates, return the mutated row (or `none`). -/
def storageUpdateTask (s : Store) (id : Nat) (u : TaskUpdates) (now : Nat) :
    Store × Option TaskRow :=
  match getTaskById s id with
  | none => (s, none)
  | some t =>
      ({ s with tasks := updateFirst (fun x => x.id == id) (applyTaskUpdates u now) s.tasks },
       some (applyTaskUpdates u now t))

/-- JavaScript truthiness of an optional string: present and non-empty.
The source guards column validation with `if (updates.column)`. -/
def truthyStr : Option String → Bool
  | none => false
  | some v => !(v == "")

/-- `TaskService.updateTask`: not-found check, truthiness-guarded column
validation, then the storage update. -/
def updateTask (s : Store) (id : Nat) (u : TaskUpdates) (now : Nat) :
    Except SvcError (Store × TaskRow) :=
  match getTaskById s id with
  | none => .error (.notFound ("Task " ++ toString id ++ " not found"))
  | some _ =>
      if truthyStr u.column && !(validColumns.contains (u.column.getD "")) then
        .error (.validation ("Invalid column \"" ++ u.column.getD "" ++
          "\". Valid columns: " ++ String.intercalate ", " validColumns))
      else
        match storageUpdateTask s id u now with
        | (s2, some t2) => .ok (s2, t2)
        | (_, none) => .error (.internalFailure ("Failed to update task " ++ toString id))

/-- `TaskService.moveTask`: column validation, not-found check, same-column
rejection, then `updateTask` restricted to the column. -/
def moveTask (s : Store) (id : Nat) (newColumn : String) (now : Nat) :
    Except SvcError (Store × TaskRow) :=
  if !(validColumns.contains newColumn) then
    .error (.validation ("Invalid column \"" ++ newColumn ++
      "\". Valid columns: " ++ String.intercalate ", " validColumns))
  else
    match getTaskById s id with
    | none => .error (.notFound ("Task " ++ toString id ++ " not found"))
    | some t =>
        if t.column == newColumn then
          .error (.invalidState ("Task " ++ toString id ++
            " is already in column \"" ++ newColumn ++ "\""))
        else
          updateTask s id { column := some newColumn } now

theorem getTaskById_after_update (s : Store) (id : Nat) (u : TaskUpdates) (now : Nat)
    (t : TaskRow) (ht : getTaskById s id = some t) :
    getTaskById
      { s with tasks := updateFirst (fun x => x.id == id) (applyTaskUpdates u now) s.tasks } id =
      some (applyTaskUpdates u now t) := by
  unfold getTaskById at ht ⊢
  simpa [ht] using
    find_key_updateFirst TaskRow.id id (applyTaskUpdates u now) (fun a => rfl) s.tasks

theorem update_task_ok (s : Store) (id : Nat) (u : TaskUpdates) (now : Nat)
    (t : TaskRow) (ht : getTaskById s id = some t)
    (hcol : ∀ c, u.column = some c → c ≠ "" → c ∈ validColumns) :
    updateTask s id u now =
      .ok ({ s with tasks := updateFirst (fun x => x.id == id) (applyTaskUpdates u now) s.tasks },
           applyTaskUpdates u now t) := by
  simp only [updateTask, ht, storageUpdateTask]
  have hguard : (truthyStr u.column && !(validColumns.contains (u.column.getD ""))) = false := by
    match hu : u.column with
    | none => rfl
    | some c =>
        by_cases hc : c = ""
        · simp [truthyStr, hc]
        · have hmem : c ∈ validColumns := hcol c hu hc
          simp [truthyStr, hc, hmem]
  rw [hguard]
  simp

/-- C5: for every existing task (with a recognized current column),
moveTask to the current column fails with InvalidStateError, and moveTask to
any of the six recognized columns other than the current one succeeds,
stores the new column, and sets updated_at to the current clock, strictly
later than the previous updated_at whenever the clock has advanced. -/
theorem c5_move_task (s : Store) (id now : Nat) (t : TaskRow) (c : String)
    (ht : getTaskById s id = some t) (hcur : t.column ∈ validColumns) :
    moveTask s id t.column now =
      .error (.invalidState ("Task " ++ toString id ++
        " is already in column \"" ++ t.column ++ "\"")) ∧
    (c ∈ validColumns → c ≠ t.column →
      ∃ s2, moveTask s id c now =
          .ok (s2, applyTaskUpdates { column := some c } now t) ∧
        (applyTaskUpdates { column := some c } now t).column = c ∧
        (applyTaskUpdates { column := some c } now t).updated_at = now ∧
        (t.updated_at < now →
          t.updated_at < (applyTaskUpdates { column := some c } now t).updated_at) ∧
        getTaskById s2 id = some (applyTaskUpdates { column := some c } now t)) := by
  constructor
  · simp [moveTask, ht]
    exact hcur
  · intro hcv hne
    have hc : validColumns.contains c = true := List.elem_eq_true_of_mem hcv
    have hbeq : (t.column == c) = false := by
      simp only [beq_eq_false_iff_ne, ne_eq]
      exact fun hx => hne (hx ▸ rfl)
    have hupd := update_task_ok s id { column := some c } now t ht
      (by intro c2 hc2 _; cases hc2; exact hcv)
    refine ⟨_, ?_, rfl, rfl, fun hlt => hlt,
      getTaskById_after_update s id { column := some c } now t ht⟩
    simp [moveTask, ht, hbeq, hupd]
    exact hcv

/-- Concrete task on the board, column "idea". -/
def wTask : TaskRow :=
  { id := 1, title := "write report", description := "quarterly report",
    assignee := some "Alice", column := "idea", dependencies := [],
    created_at := 0, updated_at := 0 }

/-- Concrete store holding one coworker and one task. -/
def wStoreTask : Store :=
  { sessions := [wSession], messages := [], cronJobs := [], cronRequests := [],
    tasks := [wTask], cronJobCounter := 1, cronRequestCounter := 1, taskCounter := 2 }

theorem c5_witness :
    (getTaskById wStoreTask 1 = some wTask ∧ wTask.column ∈ validColumns) ∧
    (moveTask wStoreTask 1 wTask.column 5 =
      .error (.invalidState ("Task " ++ toString 1 ++
        " is already in column \"" ++ wTask.column ++ "\"")) ∧
    ("done" ∈ validColumns → "done" ≠ wTask.column →
      ∃ s2, moveTask wStoreTask 1 "done" 5 =
          .ok (s2, applyTaskUpdates { column := some "done" } 5 wTask) ∧
        (applyTaskUpdates { column := some "done" } 5 wTask).column = "done" ∧
        (applyTaskUpdates { column := some "done" } 5 wTask).updated_at = 5 ∧
        (wTask.updated_at < 5 →
          wTask.updated_at < (applyTaskUpdates { column := some "done" } 5 wTask).updated_at) ∧
        getTaskById s2 1 = some (applyTaskUpdates { column := some "done" } 5 wTask))) :=
  ⟨⟨rfl, by decide⟩, c5_move_task wStoreTask 1 5 wTask "done" rfl (by decide)⟩

/-- C6 amended: updateTask fails with NotFoundError when the id is absent;
fails with ValidationError whenever the update supplies a non-empty column
value that is not one of the six recognized names; and when every supplied
column value is empty or recognized it succeeds and refreshes the task's
updated_at regardless of which fields were supplied (a supplied empty-string
column skips validation and is stored verbatim). -/
theorem c6_update_task (s : Store) (id : Nat) (u : TaskUpdates) (now : Nat) :
    (getTaskById s id = none →
      updateTask s id u now = .error (.notFound ("Task " ++ toString id ++ " not found"))) ∧
    (∀ t c, getTaskById s id = some t → u.column = some c → c ≠ "" → c ∉ validColumns →
      updateTask s id u now = .error (.validation ("Invalid column \"" ++ c ++
        "\". Valid columns: " ++ String.intercalate ", " validColumns))) ∧
    (∀ t, getTaskById s id = some t →
      (∀ c, u.column = some c → c ≠ "" → c ∈ validColumns) →
      updateTask s id u now =
        .ok ({ s with tasks := updateFirst (fun x => x.id == id) (applyTaskUpdates u now) s.tasks },
             applyTaskUpdates u now t) ∧
      (applyTaskUpdates u now t).updated_at = now) := by
  refine ⟨?_, ?_, ?_⟩
  · intro h
    simp [updateTask, h]
  · intro t c ht hu hne hnot
    have hcont : validColumns.contains c = false := by
      simpa using hnot
    simp [updateTask, ht, hu, truthyStr, hne, hcont]
    intro hmem
    exact absurd hmem hnot
  · intro t ht hcol
    exact ⟨update_task_ok s id u now t ht hcol, rfl⟩

/-- C6 fails as stated: supplying the invalid (empty-string) column value to
updateTask does not raise a ValidationError; the guard `if (updates.column)`
treats the empty string as absent and the update succeeds, storing the
unrecognized column verbatim. -/
theorem c6_counterexample :
    validColumns.contains "" = false ∧
    updateTask wStoreTask 1 { column := some "" } 5 =
      .ok ({ wStoreTask with tasks := [{ wTask with column := "", updated_at := 5 }] },
           { wTask with column := "", updated_at := 5 }) :=
  ⟨rfl, rfl⟩

/-- Concrete title-only task update used by the C6 witness. -/
def wUpd : TaskUpdates := { title := some "revised report" }

theorem c6_witness :
    (getTaskById wStoreTask 1 = some wTask) ∧
    (updateTask wStoreTask 1 wUpd 5 =
      .ok ({ wStoreTask with tasks := updateFirst (fun x => x.id == 1) (applyTaskUpdates wUpd 5) wStoreTask.tasks },
           applyTaskUpdates wUpd 5 wTask) ∧
     (applyTaskUpdates wUpd 5 wTask).updated_at = 5) :=
  ⟨rfl, (c6_update_task wStoreTask 1 wUpd 5).2.2 wTask rfl
     (by intro c hc hc2; cases hc)⟩

/-- `Map.set` on the stats map of `getColumnStats`: overwrite the key if
present, append it otherwise. -/
def setAssoc (k : String) (v : Nat) : List (String × Nat) → List (String × Nat)
  | [] => [(k, v)]
  | (k2, v2) :: rest => if k2 == k then (k, v) :: rest else (k2, v2) :: setAssoc k v rest

/-- `Map.get` on the stats map of `getColumnStats`. -/
def getAssoc (k : String) : List (String × Nat) → Option Nat
  | [] => none
  | (k2, v2) :: rest => if k2 == k then some v2 else getAssoc k rest

/-- The counting loop of `getColumnStats`:
`stats.set(task.column, (stats.get(task.column) ?? 0) + 1)` per task. -/
def tallyColumns : List TaskRow → List (String × Nat) → List (String × Nat)
  | [], m => m
  | t :: ts, m => tallyColumns ts (setAssoc t.column ((getAssoc t.column m).getD 0 + 1) m)

/-- `TaskService.getColumnStats`: initialize every recognized column at 0,
tally the tasks, read back the recognized columns in their fixed order.
(The source first sorts the task list by creation time, which cannot change
any per-column count and is omitted here.) -/
def getColumnStats (s : Store) : List (String × Nat) :=
  let init := validColumns.map (fun c => (c, 0))
  let m := tallyColumns s.tasks init
  validColumns.map (fun c => (c, (getAssoc c m).getD 0))

/-- Number of tasks sitting in column `c`. -/
def countInColumn (c : String) (ts : List TaskRow) : Nat :=
  (ts.filter (fun t => t.column == c)).length

theorem getAssoc_setAssoc_self (k : String) (v : Nat) (m : List (String × Nat)) :
    getAssoc k (setAssoc k v m) = some v := by
  induction m with
  | nil => simp [setAssoc, getAssoc]
  | cons p rest ih =>
      obtain ⟨k2, v2⟩ := p
      by_cases h : k2 = k
      · simp [setAssoc, getAssoc, h]
      · simp [setAssoc, getAssoc, h, ih]

theorem getAssoc_setAssoc_ne (k k3 : String) (v : Nat) (m : List (String × Nat))
    (h : k3 ≠ k) : getAssoc k3 (setAssoc k v m) = getAssoc k3 m := by
  have hk : k ≠ k3 := fun hx => h hx.symm
  induction m with
  | nil => simp [setAssoc, getAssoc, hk]
  | cons p rest ih =>
      obtain ⟨k2, v2⟩ := p
      by_cases h2 : k2 = k
      · subst h2
        simp [setAssoc, getAssoc, hk]
      · by_cases h3 : k2 = k3
        · subst h3
          simp [setAssoc, getAssoc, h2]
        · simp [setAssoc, getAssoc, h2, h3, ih]

theorem countInColumn_cons (c : String) (t : TaskRow) (ts : List TaskRow) :
    countInColumn c (t :: ts) =
      (if t.column = c then 1 else 0) + countInColumn c ts := by
  by_cases h : t.column = c
  · simp [countInColumn, List.filter_cons, h, Nat.add_comm]
  · simp [countInColumn, List.filter_cons, h]

theorem tally_getAssoc (ts : List TaskRow) (m : List (String × Nat)) (c : String) (v : Nat)
    (h : getAssoc c m = some v) :
    getAssoc c (tallyColumns ts m) = some (v + countInColumn c ts) := by
  induction ts generalizing m v with
  | nil => simpa [tallyColumns, countInColumn] using h
  | cons t ts ih =>
      rw [tallyColumns]
      by_cases ht : t.column = c
      · subst ht
        have h2 : getAssoc t.column
            (setAssoc t.column ((getAssoc t.column m).getD 0 + 1) m) =
            some (v + 1) := by
          rw [h]
          simpa using getAssoc_setAssoc_self t.column (v + 1) m
        rw [ih _ _ h2, countInColumn_cons]
        simp [Nat.add_comm, Nat.add_assoc, Nat.add_left_comm]
      · have h2 : getAssoc c
            (setAssoc t.column ((getAssoc t.column m).getD 0 + 1) m) = some v := by
          rw [getAssoc_setAssoc_ne _ _ _ _ (fun hx => ht hx.symm), h]
        rw [ih _ _ h2, countInColumn_cons, if_neg ht]
        simp

theorem getAssoc_init (c : String) (h : c ∈ validColumns) :
    getAssoc c (validColumns.map (fun x => (x, 0))) = some 0 := by
  simp only [validColumns, List.mem_cons, List.not_mem_nil, or_false] at h
  rcases h with rfl | rfl | rfl | rfl | rfl | rfl <;> rfl

theorem getColumnStats_eq (s : Store) :
    getColumnStats s = validColumns.map (fun c => (c, countInColumn c s.tasks)) := by
  unfold getColumnStats
  apply List.map_congr_left
  intro c hc
  have h0 := getAssoc_init c hc
  have h1 := tally_getAssoc s.tasks _ c 0 h0
  rw [h1]
  simp

theorem sum_map_add_nat {α : Type} (l : List α) (f g : α → Nat) :
    (l.map (fun a => f a + g a)).sum = (l.map f).sum + (l.map g).sum := by
  induction l with
  | nil => rfl
  | cons a as ih => simp [ih, Nat.add_assoc, Nat.add_left_comm]

theorem sum_counts (ts : List TaskRow) (h : ∀ t ∈ ts, t.column ∈ validColumns) :
    (validColumns.map (fun c => countInColumn c ts)).sum = ts.length := by
  induction ts with
  | nil => rfl
  | cons t ts ih =>
      have hmap : validColumns.map (fun c => countInColumn c (t :: ts)) =
          validColumns.map (fun c => (if t.column = c then 1 else 0) + countInColumn c ts) :=
        List.map_congr_left (fun c _ => countInColumn_cons c t ts)
      rw [hmap, sum_map_add_nat]
      have hone : (validColumns.map (fun c => if t.column = c then 1 else 0)).sum = 1 := by
        have hmem := h t (List.mem_cons_self t ts)
        simp only [validColumns, List.mem_cons, List.not_mem_nil, or_false] at hmem
        rcases hmem with hx | hx | hx | hx | hx | hx <;> simp [validColumns, hx]
      rw [hone, ih (fun x hx => h x (List.mem_cons_of_mem t hx))]
      simp [List.length_cons, Nat.add_comm]

/-- C7: for every task-board state whose tasks all sit in recognized columns,
getColumnStats returns exactly six entries, one per recognized column in the
fixed order with none omitted, each entry counting the tasks in that column
(0 for empty columns), and the six counts sum to the total number of tasks. -/
theorem c7_column_stats (s : Store) (h : ∀ t ∈ s.tasks, t.column ∈ validColumns) :
    getColumnStats s = validColumns.map (fun c => (c, countInColumn c s.tasks)) ∧
    (getColumnStats s).length = 6 ∧
    ((getColumnStats s).map (fun e => e.2)).sum = s.tasks.length ∧
    (∀ c ∈ validColumns, countInColumn c s.tasks = 0 → (c, 0) ∈ getColumnStats s) := by
  have hchar := getColumnStats_eq s
  refine ⟨hchar, ?_, ?_, ?_⟩
  · rw [hchar, List.length_map]
    rfl
  · rw [hchar, List.map_map]
    have : ((fun e => Prod.snd e) ∘ fun c => (c, countInColumn c s.tasks)) =
        fun c => countInColumn c s.tasks := rfl
    rw [this]
    exact sum_counts s.tasks h
  · intro c hc h0
    rw [hchar]
    exact List.mem_map.mpr ⟨c, hc, by rw [h0]⟩

theorem c7_witness :
    (∀ t ∈ wStoreTask.tasks, t.column ∈ validColumns) ∧
    (getColumnStats wStoreTask =
       validColumns.map (fun c => (c, countInColumn c wStoreTask.tasks)) ∧
     (getColumnStats wStoreTask).length = 6 ∧
     ((getColumnStats wStoreTask).map (fun e => e.2)).sum = wStoreTask.tasks.length ∧
     (∀ c ∈ validColumns, countInColumn c wStoreTask.tasks = 0 →
        (c, 0) ∈ getColumnStats wStoreTask)) :=
  ⟨by decide, c7_column_stats wStoreTask (by decide)⟩

/-- The optional `{assignee?, column?}` filters of `searchTasks`. -/
structure TaskFilters where
  assignee : Option String := none
  column : Option String := none
deriving DecidableEq

/-- `MockAgentOfficeStorage.searchTasks`: JavaScript `includes` (substring)
match on title or description, then truthiness-guarded equality filters.
(The source finally sorts by creation time, which does not affect membership
and is omitted.) -/
def searchTasks (s : Store) (query : String) (filters : TaskFilters) : List TaskRow :=
  let base := s.tasks.filter
    (fun t => strIncludes t.title query || strIncludes t.description query)
  let base2 := if truthyStr filters.assignee then
    base.filter (fun t => t.assignee == filters.assignee) else base
  if truthyStr filters.column then
    base2.filter (fun t => t.column == filters.column.getD "") else base2

/-- ASCII-lowercased character list of a string, the case folding SQLite
applies in `LIKE`. -/
def lowerChars (s : String) : List Char := s.toList.map Char.toLower

/-- SQLite `col LIKE 'q%'` for a metacharacter-free `q`: case-insensitive
prefix match. -/
def sqlLikeStarts (query s : String) : Bool :=
  chListLeads (lowerChars query) (lowerChars s)

/-- `SqliteStorage.searchTasks`: `WHERE (title LIKE 'q%' OR description LIKE 'q%')`
with the equality filters appended under the same truthiness guards. -/
def sqliteSearchTasks (s : Store) (query : String) (filters : TaskFilters) : List TaskRow :=
  let base := s.tasks.filter
    (fun t => sqlLikeStarts query t.title || sqlLikeStarts query t.description)
  let base2 := if truthyStr filters.assignee then
    base.filter (fun t => t.assignee == filters.assignee) else base
  if truthyStr filters.column then
    base2.filter (fun t => t.column == filters.column.getD "") else base2

/-- The empty filter record. -/
def noFilters : TaskFilters := {}

/-- Concrete task whose title contains, but does not start with, "beta". -/
def wTaskBeta : TaskRow :=
  { id := 9, title := "alpha beta", description := "misc notes", assignee := none,
    column := "idea", dependencies := [], created_at := 0, updated_at := 0 }

/-- Concrete store holding the "alpha beta" task. -/
def wStoreBeta : Store :=
  { sessions := [wSession], messages := [], cronJobs := [], cronRequests := [],
    tasks := [wTaskBeta], cronJobCounter := 1, cronRequestCounter := 1, taskCounter := 10 }

/-- C8 fails as stated for the SQL backend: the task titled "alpha beta"
contains the query "beta" as a substring, yet the SQLite searchTasks (which
matches `LIKE 'beta%'`, a prefix pattern) returns nothing. -/
theorem c8_counterexample :
    strIncludes wTaskBeta.title "beta" = true ∧
    wTaskBeta ∈ wStoreBeta.tasks ∧
    sqliteSearchTasks wStoreBeta "beta" noFilters = [] :=
  ⟨by decide, by simp [wStoreBeta], by decide⟩

theorem strIncludes_empty (s : String) : strIncludes s "" = true := by
  unfold strIncludes
  cases s.toList <;> simp [chListHasSub, chListLeads]

/-- C8 amended: the in-memory backend returns exactly the tasks whose title
or description contains the query as a substring, while the SQL backend
returns exactly the tasks whose title or description starts with the query
(case-insensitively); both are further narrowed by equality on supplied
non-empty filters, and the empty query matches every task. -/
theorem c8_search_tasks (s : Store) (query : String) (filters : TaskFilters) (t : TaskRow)
    (ha : filters.assignee ≠ some "") (hc : filters.column ≠ some "") :
    (t ∈ searchTasks s query filters ↔
      t ∈ s.tasks ∧ (strIncludes t.title query || strIncludes t.description query) = true ∧
      (∀ a, filters.assignee = some a → t.assignee = some a) ∧
      (∀ c, filters.column = some c → t.column = c)) ∧
    (t ∈ sqliteSearchTasks s query filters ↔
      t ∈ s.tasks ∧ (sqlLikeStarts query t.title || sqlLikeStarts query t.description) = true ∧
      (∀ a, filters.assignee = some a → t.assignee = some a) ∧
      (∀ c, filters.column = some c → t.column = c)) ∧
    (t ∈ searchTasks s "" filters ↔
      t ∈ s.tasks ∧
      (∀ a, filters.assignee = some a → t.assignee = some a) ∧
      (∀ c, filters.column = some c → t.column = c)) := by
  obtain ⟨fa, fc⟩ := filters
  have hmock : ∀ q : String, t ∈ searchTasks s q ⟨fa, fc⟩ ↔
      t ∈ s.tasks ∧ (strIncludes t.title q || strIncludes t.description q) = true ∧
      (∀ a, fa = some a → t.assignee = some a) ∧
      (∀ c, fc = some c → t.column = c) := by
    intro q
    cases fa with
    | none =>
        cases fc with
        | none => simp [searchTasks, truthyStr, List.mem_filter]
        | some c =>
            have hc2 : ¬(c = "") := fun hx => hc (by rw [hx])
            simp [searchTasks, truthyStr, hc2, List.mem_filter, and_assoc] ; tauto
    | some a =>
        have ha2 : ¬(a = "") := fun hx => ha (by rw [hx])
        cases fc with
        | none => simp [searchTasks, truthyStr, ha2, List.mem_filter, and_assoc] ; tauto
        | some c =>
            have hc2 : ¬(c = "") := fun hx => hc (by rw [hx])
            simp [searchTasks, truthyStr, ha2, hc2, List.mem_filter, and_assoc] ; tauto
  refine ⟨hmock query, ?_, ?_⟩
  · cases fa with
    | none =>
        cases fc with
        | none => simp [sqliteSearchTasks, truthyStr, List.mem_filter]
        | some c =>
            have hc2 : ¬(c = "") := fun hx => hc (by rw [hx])
            simp [sqliteSearchTasks, truthyStr, hc2, List.mem_filter, and_assoc] ; tauto
    | some a =>
        have ha2 : ¬(a = "") := fun hx => ha (by rw [hx])
        cases fc with
        | none => simp [sqliteSearchTasks, truthyStr, ha2, List.mem_filter, and_assoc] ; tauto
        | some c =>
            have hc2 : ¬(c = "") := fun hx => hc (by rw [hx])
            simp [sqliteSearchTasks, truthyStr, ha2, hc2, List.mem_filter, and_assoc] ; tauto
  · rw [hmock ""]
    simp [strIncludes_empty]

theorem c8_witness :
    (noFilters.assignee ≠ some "" ∧ noFilters.column ≠ some "") ∧
    ((wTaskBeta ∈ searchTasks wStoreBeta "alpha" noFilters ↔
      wTaskBeta ∈ wStoreBeta.tasks ∧
      (strIncludes wTaskBeta.title "alpha" || strIncludes wTaskBeta.description "alpha") = true ∧
      (∀ a, noFilters.assignee = some a → wTaskBeta.assignee = some a) ∧
      (∀ c, noFilters.column = some c → wTaskBeta.column = c)) ∧
    (wTaskBeta ∈ sqliteSearchTasks wStoreBeta "alpha" noFilters ↔
      wTaskBeta ∈ wStoreBeta.tasks ∧
      (sqlLikeStarts "alpha" wTaskBeta.title || sqlLikeStarts "alpha" wTaskBeta.description) = true ∧
      (∀ a, noFilters.assignee = some a → wTaskBeta.assignee = some a) ∧
      (∀ c, noFilters.column = some c → wTaskBeta.column = c)) ∧
    (wTaskBeta ∈ searchTasks wStoreBeta "" noFilters ↔
      wTaskBeta ∈ wStoreBeta.tasks ∧
      (∀ a, noFilters.assignee = some a → wTaskBeta.assignee = some a) ∧
      (∀ c, noFilters.column = some c → wTaskBeta.column = c))) :=
  ⟨⟨by decide, by decide⟩,
   c8_search_tasks wStoreBeta "alpha" noFilters wTaskBeta (by decide) (by decide)⟩

theorem removeFirst_key_eq_filter {α : Type} (key : α → Nat) (i : Nat) (l : List α)
    (hn : (l.map key).Nodup) :
    removeFirst (fun a => key a == i) l = l.filter (fun a => !(key a == i)) := by
  induction l with
  | nil => rfl
  | cons a as ih =>
      rw [List.map_cons, List.nodup_cons] at hn
      by_cases h : key a == i
      · rw [removeFirst, if_pos h, List.filter_cons, if_neg (by simpa using h)]
        refine (List.filter_eq_self.mpr ?_).symm
        intro x hx
        have hxa : key x ≠ key a := fun hk => hn.1 (hk ▸ List.mem_map_of_mem key hx)
        have : ¬ (key x == i) := by
          simp only [beq_iff_eq] at h ⊢
          exact fun hk => hxa (hk.trans h.symm)
        simpa using this
      · rw [removeFirst, if_neg (by simpa using h), List.filter_cons,
          if_pos (by simpa using h), ih hn.2]

theorem foldl_removeFirst_eq_filter {α : Type} (key : α → Nat) (ids : List Nat) (l : List α)
    (hn : (l.map key).Nodup) :
    ids.foldl (fun acc i => removeFirst (fun a => key a == i) acc) l =
      l.filter (fun a => !(ids.contains (key a))) := by
  induction ids generalizing l with
  | nil =>
      rw [List.foldl_nil]
      refine (List.filter_eq_self.mpr ?_).symm
      intro x hx
      rfl
  | cons i ids ih =>
      rw [List.foldl_cons, removeFirst_key_eq_filter key i l hn]
      have hsub : ((l.filter (fun a => !(key a == i))).map key).Sublist (l.map key) :=
        (List.filter_sublist l).map key
      rw [ih _ (List.Nodup.sublist hsub hn), List.filter_filter]
      refine List.filter_congr ?_
      intro x hx
      rw [List.contains_cons, Bool.not_or]
      exact Bool.and_comm _ _

theorem updateFirst_of_find?_none {α : Type} (p : α → Bool) (f : α → α) (l : List α)
    (h : l.find? p = none) : updateFirst p f l = l := by
  induction l with
  | nil => rfl
  | cons a as ih =>
      by_cases hp : p a
      · rw [List.find?_cons_of_pos _ hp] at h
        cases h
      · rw [List.find?_cons_of_neg _ (by simpa using hp)] at h
        rw [updateFirst, if_neg (by simpa using hp), ih h]

theorem map_key_updateFirst {α : Type} (key : α → Nat) (i : Nat) (g : α → α)
    (hg : ∀ a, key (g a) = key a) (l : List α) :
    (updateFirst (fun a => key a == i) g l).map key = l.map key := by
  induction l with
  | nil => rfl
  | cons a as ih =>
      by_cases h : key a == i
      · rw [updateFirst, if_pos h, List.map_cons, List.map_cons, hg]
      · rw [updateFirst, if_neg (by simpa using h), List.map_cons, List.map_cons, ih]

theorem foldl_updateFirst_eq_map {α : Type} (key : α → Nat) (g : α → α)
    (hg : ∀ a, key (g a) = key a) (ids : List Nat) (l : List α)
    (hn : (l.map key).Nodup) (hids : ids.Nodup) :
    ids.foldl (fun acc i => updateFirst (fun a => key a == i) g acc) l =
      l.map (fun a => if ids.contains (key a) then g a else a) := by
  induction ids generalizing l with
  | nil =>
      rw [List.foldl_nil]
      have : ∀ a ∈ l, (if ([] : List Nat).contains (key a) then g a else a) = a := by
        intro a ha
        rfl
      rw [List.map_congr_left this, List.map_id']
  | cons i ids ih =>
      rw [List.nodup_cons] at hids
      have hkey1 : ∀ a, key (if key a == i then g a else a) = key a := by
        intro a
        by_cases h : key a == i
        · rw [if_pos h, hg]
        · rw [if_neg (by simpa using h)]
      have hnn : ((l.map (fun a => if key a == i then g a else a)).map key).Nodup := by
        rw [List.map_map]
        have heq : l.map (key ∘ fun a => if key a == i then g a else a) = l.map key :=
          List.map_congr_left (fun a _ => hkey1 a)
        rw [heq]
        exact hn
      rw [List.foldl_cons, updateFirst_key_eq_map key i g l hn, ih _ hnn hids.2,
        List.map_map]
      refine List.map_congr_left ?_
      intro a ha
      by_cases h : key a == i
      · have hai : key a = i := by simpa using h
        simp [h, hg, hai, List.contains_cons]
        exact fun hmem => absurd hmem hids.1
      · have hf : (key a == i) = false := by simpa using h
        have hne : key a ≠ i := by simpa using h
        simp [hf, hne, List.contains_cons]

/-- `SqliteStorage.deleteMessagesForCoworker`:
`DELETE FROM messages WHERE from_name = ? OR to_name = ?`. -/
def deleteMessagesForCoworker (s : Store) (name : String) : Store :=
  { s with messages :=
      s.messages.filter (fun m => !(m.from_name == name || m.to_name == name)) }

/-- `listCronJobsForSession`: jobs bound to the coworker.  (The source also
sorts by name, which cannot affect which jobs the delete loop visits.) -/
def listCronJobsForSession (s : Store) (name : String) : List CronJobRow :=
  s.cronJobs.filter (fun c => c.session_name == name)

/-- `MockAgentOfficeStorage.deleteCronJob`: splice out the first id match. -/
def storageDeleteCronJob (s : Store) (id : Nat) : Store :=
  { s with cronJobs := removeFirst (fun c => c.id == id) s.cronJobs }

/-- `listCronRequests({ sessionName: name })`: requests bound to the coworker.
(The source also sorts by requested_at, irrelevant to the delete loop.) -/
def listCronRequestsForSession (s : Store) (name : String) : List CronRequestRow :=
  s.cronRequests.filter (fun r => r.session_name == name)

/-- `MockAgentOfficeStorage.deleteCronRequest`: splice out the first id match. -/
def storageDeleteCronRequest (s : Store) (id : Nat) : Store :=
  { s with cronRequests := removeFirst (fun r => r.id == id) s.cronRequests }

/-- `MockAgentOfficeStorage.deleteSession`: splice out the first id match. -/
def storageDeleteSession (s : Store) (id : Nat) : Store :=
  { s with sessions := removeFirst (fun x => x.id == id) s.sessions }

/-- The `{ assignee: null }` partial update applied to each task of the
deleted coworker. -/
def unassignUpdate : TaskUpdates := { assignee := some none }

/-- Loop of the `deleteCoworker` transaction deleting every cron job listed
for the coworker. -/
def cascadeDeleteJobs (s : Store) (name : String) : Store :=
  (listCronJobsForSession s name).foldl (fun acc j => storageDeleteCronJob acc j.id) s

/-- Loop of the `deleteCoworker` transaction deleting every cron request
listed for the coworker. -/
def cascadeDeleteReqs (s : Store) (name : String) : Store :=
  (listCronRequestsForSession s name).foldl (fun acc r => storageDeleteCronRequest acc r.id) s

/-- Loop of the `deleteCoworker` transaction unassigning every task found by
`searchTasks('', { assignee: name })`. -/
def cascadeUnassignTasks (s : Store) (name : String) (now : Nat) : Store :=
  (searchTasks s "" { assignee := some name, column := none }).foldl
    (fun acc t => (storageUpdateTask acc t.id unassignUpdate now).1) s

/-- The body of the `deleteCoworker` transaction: delete the coworker's
messages, cron jobs and cron requests, unassign their tasks, then delete the
coworker row itself, in the source's order. -/
def cascadeResult (s : Store) (name : String) (sessId : Nat) (now : Nat) : Store :=
  storageDeleteSession
    (cascadeUnassignTasks
      (cascadeDeleteReqs
        (cascadeDeleteJobs (deleteMessagesForCoworker s name) name) name) name now)
    sessId

/-- The `deleteCoworker` command (src/commands/sessions.ts): not-found check,
then the cascading transaction. -/
def deleteCoworker (s : Store) (name : String) (now : Nat) : Except SvcError Store :=
  match getSessionByName s name with
  | none => .error (.notFound ("Coworker " ++ name ++ " not found"))
  | some sess => .ok (cascadeResult s name sess.id now)

theorem fold_delete_jobs (jobs : List CronJobRow) (s : Store) :
    jobs.foldl (fun acc j => storageDeleteCronJob acc j.id) s =
      { s with cronJobs := (jobs.map (fun j => j.id)).foldl (fun acc i => removeFirst (fun c => c.id == i) acc) s.cronJobs } := by
  induction jobs generalizing s with
  | nil => rfl
  | cons j js ih =>
      rw [List.foldl_cons, ih, List.map_cons, List.foldl_cons]
      rfl

theorem fold_delete_reqs (reqs : List CronRequestRow) (s : Store) :
    reqs.foldl (fun acc r => storageDeleteCronRequest acc r.id) s =
      { s with cronRequests := (reqs.map (fun r => r.id)).foldl (fun acc i => removeFirst (fun r => r.id == i) acc) s.cronRequests } := by
  induction reqs generalizing s with
  | nil => rfl
  | cons r rs ih =>
      rw [List.foldl_cons, ih, List.map_cons, List.foldl_cons]
      rfl

theorem storageUpdateTask_fst (s : Store) (id : Nat) (u : TaskUpdates) (now : Nat) :
    (storageUpdateTask s id u now).1 =
      { s with tasks := updateFirst (fun x => x.id == id) (applyTaskUpdates u now) s.tasks } := by
  unfold storageUpdateTask
  cases h : getTaskById s id with
  | none =>
      unfold getTaskById at h
      rw [updateFirst_of_find?_none _ _ _ h]
  | some t => rfl

theorem fold_update_tasks (ts : List TaskRow) (s : Store) (now : Nat) :
    ts.foldl (fun acc t => (storageUpdateTask acc t.id unassignUpdate now).1) s =
      { s with tasks := (ts.map (fun t => t.id)).foldl (fun acc i => updateFirst (fun x => x.id == i) (applyTaskUpdates unassignUpdate now) acc) s.tasks } := by
  induction ts generalizing s with
  | nil => rfl
  | cons t ts ih =>
      rw [List.foldl_cons, ih, List.map_cons, List.foldl_cons, storageUpdateTask_fst]

theorem cascadeDeleteJobs_eq (s : Store) (name : String)
    (h : (s.cronJobs.map (fun c => c.id)).Nodup) :
    cascadeDeleteJobs s name =
      { s with cronJobs := s.cronJobs.filter (fun c => !(((s.cronJobs.filter (fun c => c.session_name == name)).map (fun j => j.id)).contains c.id)) } := by
  unfold cascadeDeleteJobs listCronJobsForSession
  rw [fold_delete_jobs, foldl_removeFirst_eq_filter CronJobRow.id _ _ h]

theorem cascadeDeleteReqs_eq (s : Store) (name : String)
    (h : (s.cronRequests.map (fun r => r.id)).Nodup) :
    cascadeDeleteReqs s name =
      { s with cronRequests := s.cronRequests.filter (fun r => !(((s.cronRequests.filter (fun r => r.session_name == name)).map (fun r => r.id)).contains r.id)) } := by
  unfold cascadeDeleteReqs listCronRequestsForSession
  rw [fold_delete_reqs, foldl_removeFirst_eq_filter CronRequestRow.id _ _ h]

theorem searchTasks_sublist (s : Store) (q : String) (fl : TaskFilters) :
    (searchTasks s q fl).Sublist s.tasks := by
  unfold searchTasks
  cases h1 : truthyStr fl.assignee <;> cases h2 : truthyStr fl.column <;>
    simp only [h1, h2, Bool.false_eq_true, if_true, if_false] <;>
    first
    | exact List.filter_sublist _
    | exact (List.filter_sublist _).trans (List.filter_sublist _)
    | exact ((List.filter_sublist _).trans (List.filter_sublist _)).trans (List.filter_sublist _)

theorem cascadeUnassignTasks_eq (s : Store) (name : String) (now : Nat)
    (h : (s.tasks.map (fun t => t.id)).Nodup) :
    cascadeUnassignTasks s name now =
      { s with tasks := s.tasks.map (fun t => if ((searchTasks s "" { assignee := some name, column := none }).map (fun t => t.id)).contains t.id then applyTaskUpdates unassignUpdate now t else t) } := by
  unfold cascadeUnassignTasks
  rw [fold_update_tasks,
    foldl_updateFirst_eq_map TaskRow.id (applyTaskUpdates unassignUpdate now) (fun a => rfl) _ _ h
      (List.Nodup.sublist ((searchTasks_sublist s "" _).map (fun t => t.id)) h)]

theorem mem_searchTasks_of_assignee (s : Store) (name : String) (x : TaskRow)
    (hx : x ∈ s.tasks) (ha : x.assignee = some name) :
    x ∈ searchTasks s "" { assignee := some name, column := none } := by
  unfold searchTasks
  have hbase : x ∈ s.tasks.filter
      (fun t => strIncludes t.title "" || strIncludes t.description "") :=
    List.mem_filter.mpr ⟨hx, by simp [strIncludes_empty]⟩
  cases hn : (name == "") with
  | true => simpa [truthyStr, hn] using hbase
  | false =>
      have hmem : x ∈ (s.tasks.filter
          (fun t => strIncludes t.title "" || strIncludes t.description "")).filter
          (fun t => t.assignee == some name) :=
        List.mem_filter.mpr ⟨hbase, by simp [ha]⟩
      simpa [truthyStr, hn] using hmem

theorem filter_removeAll_none {α : Type} (key : α → Nat) (p : α → Bool) (l : List α) (x : α)
    (hx : x ∈ l.filter (fun a => !(((l.filter p).map key).contains (key a)))) :
    p x = false := by
  rw [List.mem_filter] at hx
  cases hpx : p x with
  | false => rfl
  | true =>
      have hxf : x ∈ l.filter p := List.mem_filter.mpr ⟨hx.1, hpx⟩
      have hmem : key x ∈ (l.filter p).map key := List.mem_map_of_mem key hxf
      have hcon : ((l.filter p).map key).contains (key x) = true :=
        List.elem_eq_true_of_mem hmem
      rw [hcon] at hx
      simp at hx

/-- C2: deleteCoworker(name) fails with NotFoundError if no coworker with
that name exists; otherwise, after it completes, no message has that
coworker as sender or recipient, no cron job and no cron request is bound to
that coworker, every task that was assigned to that coworker has assignee
null, and the coworker record itself is gone. -/
theorem c2_delete_coworker (s : Store) (name : String) (now : Nat)
    (hsn : (s.sessions.map (fun x => x.name)).Nodup)
    (hsi : (s.sessions.map (fun x => x.id)).Nodup)
    (hji : (s.cronJobs.map (fun c => c.id)).Nodup)
    (hri : (s.cronRequests.map (fun r => r.id)).Nodup)
    (hti : (s.tasks.map (fun t => t.id)).Nodup) :
    (getSessionByName s name = none →
      deleteCoworker s name now = .error (.notFound ("Coworker " ++ name ++ " not found"))) ∧
    (∀ sess, getSessionByName s name = some sess →
      deleteCoworker s name now = .ok (cascadeResult s name sess.id now) ∧
      (∀ m ∈ (cascadeResult s name sess.id now).messages,
        m.from_name ≠ name ∧ m.to_name ≠ name) ∧
      (∀ c ∈ (cascadeResult s name sess.id now).cronJobs, c.session_name ≠ name) ∧
      (∀ r ∈ (cascadeResult s name sess.id now).cronRequests, r.session_name ≠ name) ∧
      (∀ t ∈ (cascadeResult s name sess.id now).tasks, t.assignee ≠ some name) ∧
      (∀ x ∈ (cascadeResult s name sess.id now).sessions, x.name ≠ name)) := by
  constructor
  · intro h
    simp [deleteCoworker, h]
  · intro sess hfound
    have hfinal : cascadeResult s name sess.id now =
        { s with
          messages := s.messages.filter (fun m => !(m.from_name == name || m.to_name == name)),
          cronJobs := s.cronJobs.filter (fun c => !(((s.cronJobs.filter (fun c => c.session_name == name)).map (fun j => j.id)).contains c.id)),
          cronRequests := s.cronRequests.filter (fun r => !(((s.cronRequests.filter (fun r => r.session_name == name)).map (fun r => r.id)).contains r.id)),
          tasks := s.tasks.map (fun t => if ((searchTasks s "" { assignee := some name, column := none }).map (fun t => t.id)).contains t.id then applyTaskUpdates unassignUpdate now t else t),
          sessions := removeFirst (fun x => x.id == sess.id) s.sessions } := by
      have h2 : cascadeDeleteJobs { s with messages := s.messages.filter (fun m => !(m.from_name == name || m.to_name == name)) } name =
          { s with
            messages := s.messages.filter (fun m => !(m.from_name == name || m.to_name == name)),
            cronJobs := s.cronJobs.filter (fun c => !(((s.cronJobs.filter (fun c => c.session_name == name)).map (fun j => j.id)).contains c.id)) } :=
        (cascadeDeleteJobs_eq { s with messages := s.messages.filter (fun m => !(m.from_name == name || m.to_name == name)) } name hji).trans rfl
      have h3 : cascadeDeleteReqs
          { s with
            messages := s.messages.filter (fun m => !(m.from_name == name || m.to_name == name)),
            cronJobs := s.cronJobs.filter (fun c => !(((s.cronJobs.filter (fun c => c.session_name == name)).map (fun j => j.id)).contains c.id)) } name =
          { s with
            messages := s.messages.filter (fun m => !(m.from_name == name || m.to_name == name)),
            cronJobs := s.cronJobs.filter (fun c => !(((s.cronJobs.filter (fun c => c.session_name == name)).map (fun j => j.id)).contains c.id)),
            cronRequests := s.cronRequests.filter (fun r => !(((s.cronRequests.filter (fun r => r.session_name == name)).map (fun r => r.id)).contains r.id)) } :=
        (cascadeDeleteReqs_eq { s with messages := s.messages.filter (fun m => !(m.from_name == name || m.to_name == name)), cronJobs := s.cronJobs.filter (fun c => !(((s.cronJobs.filter (fun c => c.session_name == name)).map (fun j => j.id)).contains c.id)) } name hri).trans rfl
      have h4 : cascadeUnassignTasks
          { s with
            messages := s.messages.filter (fun m => !(m.from_name == name || m.to_name == name)),
            cronJobs := s.cronJobs.filter (fun c => !(((s.cronJobs.filter (fun c => c.session_name == name)).map (fun j => j.id)).contains c.id)),
            cronRequests := s.cronRequests.filter (fun r => !(((s.cronRequests.filter (fun r => r.session_name == name)).map (fun r => r.id)).contains r.id)) } name now =
          { s with
            messages := s.messages.filter (fun m => !(m.from_name == name || m.to_name == name)),
            cronJobs := s.cronJobs.filter (fun c => !(((s.cronJobs.filter (fun c => c.session_name == name)).map (fun j => j.id)).contains c.id)),
            cronRequests := s.cronRequests.filter (fun r => !(((s.cronRequests.filter (fun r => r.session_name == name)).map (fun r => r.id)).contains r.id)),
            tasks := s.tasks.map (fun t => if ((searchTasks s "" { assignee := some name, column := none }).map (fun t => t.id)).contains t.id then applyTaskUpdates unassignUpdate now t else t) } :=
        (cascadeUnassignTasks_eq { s with messages := s.messages.filter (fun m => !(m.from_name == name || m.to_name == name)), cronJobs := s.cronJobs.filter (fun c => !(((s.cronJobs.filter (fun c => c.session_name == name)).map (fun j => j.id)).contains c.id)), cronRequests := s.cronRequests.filter (fun r => !(((s.cronRequests.filter (fun r => r.session_name == name)).map (fun r => r.id)).contains r.id)) } name now hti).trans rfl
      calc cascadeResult s name sess.id now
          = storageDeleteSession
              (cascadeUnassignTasks
                (cascadeDeleteReqs
                  (cascadeDeleteJobs { s with messages := s.messages.filter (fun m => !(m.from_name == name || m.to_name == name)) } name) name) name now)
              sess.id := rfl
        _ = _ := by rw [h2, h3, h4]; rfl
    refine ⟨by simp [deleteCoworker, hfound], ?_, ?_, ?_, ?_, ?_⟩
    · intro m hm
      rw [hfinal] at hm
      have := (List.mem_filter.mp hm).2
      simp only [Bool.not_eq_eq_eq_not, Bool.not_true, Bool.or_eq_false_iff] at this
      exact ⟨by simpa using this.1, by simpa using this.2⟩
    · intro c hc
      rw [hfinal] at hc
      have := filter_removeAll_none (fun j => j.id) (fun c => c.session_name == name)
        s.cronJobs c hc
      simpa using this
    · intro r hr
      rw [hfinal] at hr
      have := filter_removeAll_none (fun r => r.id) (fun r => r.session_name == name)
        s.cronRequests r hr
      simpa using this
    · intro t0 ht0
      rw [hfinal] at ht0
      obtain ⟨t, ht, rfl⟩ := List.mem_map.mp ht0
      by_cases hcon : ((searchTasks s "" { assignee := some name, column := none }).map (fun t => t.id)).contains t.id
      · rw [if_pos hcon]
        simp [applyTaskUpdates, unassignUpdate]
      · rw [if_neg hcon]
        intro heq
        have hmem := mem_searchTasks_of_assignee s name t ht heq
        have : t.id ∈ (searchTasks s "" { assignee := some name, column := none }).map (fun t => t.id) :=
          List.mem_map_of_mem (fun t => t.id) hmem
        exact hcon (List.elem_eq_true_of_mem this)
    · intro x hx
      rw [hfinal] at hx
      rw [removeFirst_key_eq_filter SessionRow.id sess.id s.sessions hsi] at hx
      rw [List.mem_filter] at hx
      intro hxname
      have hsessmem : sess ∈ s.sessions := List.mem_of_find?_eq_some hfound
      have hsessname : sess.name = name := by
        have := List.find?_some hfound
        simpa using this
      have hxe : x = sess :=
        List.inj_on_of_nodup_map hsn hx.1 hsessmem (by rw [hxname, hsessname])
      rw [hxe] at hx
      simp at hx

/-- Concrete store for the cascade-delete scenario: coworker "Alice" with
two messages, one cron job, one cron request, and one assigned task. -/
def wStoreC2 : Store :=
  { sessions := [wSession],
    messages :=
      [{ id := 1, from_name := "Alice", to_name := "Bob", body := "hi",
         read := false, injected := false, notified := false, created_at := 0 },
       { id := 2, from_name := "Carol", to_name := "Alice", body := "yo",
         read := true, injected := false, notified := false, created_at := 1 }],
    cronJobs := [wJob],
    cronRequests := [wReq],
    tasks := [wTask],
    cronJobCounter := 2, cronRequestCounter := 2, taskCounter := 2 }

theorem c2_witness :
    ((wStoreC2.sessions.map (fun x => x.name)).Nodup ∧
     (wStoreC2.sessions.map (fun x => x.id)).Nodup ∧
     (wStoreC2.cronJobs.map (fun c => c.id)).Nodup ∧
     (wStoreC2.cronRequests.map (fun r => r.id)).Nodup ∧
     (wStoreC2.tasks.map (fun t => t.id)).Nodup) ∧
    ((getSessionByName wStoreC2 "Alice" = none →
      deleteCoworker wStoreC2 "Alice" 7 =
        .error (.notFound ("Coworker " ++ "Alice" ++ " not found"))) ∧
    (∀ sess, getSessionByName wStoreC2 "Alice" = some sess →
      deleteCoworker wStoreC2 "Alice" 7 = .ok (cascadeResult wStoreC2 "Alice" sess.id 7) ∧
      (∀ m ∈ (cascadeResult wStoreC2 "Alice" sess.id 7).messages,
        m.from_name ≠ "Alice" ∧ m.to_name ≠ "Alice") ∧
      (∀ c ∈ (cascadeResult wStoreC2 "Alice" sess.id 7).cronJobs, c.session_name ≠ "Alice") ∧
      (∀ r ∈ (cascadeResult wStoreC2 "Alice" sess.id 7).cronRequests, r.session_name ≠ "Alice") ∧
      (∀ t ∈ (cascadeResult wStoreC2 "Alice" sess.id 7).tasks, t.assignee ≠ some "Alice") ∧
      (∀ x ∈ (cascadeResult wStoreC2 "Alice" sess.id 7).sessions, x.name ≠ "Alice"))) :=
  ⟨⟨by decide, by decide, by decide, by decide, by decide⟩,
   c2_delete_coworker wStoreC2 "Alice" 7 (by decide) (by decide) (by decide) (by decide) (by decide)⟩

end AgentOffice
